import Mathlib

/-!
Verification development for the IBT (inter-basin water transfer) ecology
pipeline in `src/match_fish_diversity.py`.  The pipeline parses free-text
coordinate strings, resolves points to drainage-basin polygons (with a
nearest-polygon fallback), aggregates per-basin species inventories from an
occurrence table, and computes pairwise Jaccard similarity metrics.

Modelling decisions:
* Python strings are `List Char`; `re.search` with the two fixed patterns
  `(\d+\.?\d*)\s*°([NS])` and `(\d+\.?\d*)\s*°([EW])` is embedded as a
  leftmost-position search whose per-position matcher enumerates the greedy
  backtracking candidates of each sub-pattern in Python preference order.
  The character class `\d` is modelled as the ASCII digits and `\s` as
  `Char.isWhitespace` (the inputs are ASCII apart from the degree sign).
* Python floats are idealised as `ℚ`; `float` applied to a regex group that
  matches `\d+\.?\d*` is exact decimal conversion.
* The geometry library (shapely/geopandas) is an external collaborator: a
  basin record carries its name together with `contains` / `distance`
  capabilities, the minimal interface the lookup uses.  `Series.idxmin`
  (first index attaining the minimum, raising on an empty series) is
  embedded explicitly.
* `raise` is modelled with `Except`/`Option` error values; the `print`
  diagnostic of the nearest-basin fallback is modelled as an explicit list
  of emitted warning records.
-/

deriving instance DecidableEq for Except

namespace IbtEcology

/-! ## Coordinate parser: `parse_coordinate_string` (lines 50-69) -/

/-- All ways a greedy star of a character class can split `cs` into a matched
prefix and a remainder, in Python preference order (longest first). -/
def runSplits (p : Char → Bool) (cs : List Char) : List (List Char × List Char) :=
  let r := cs.takeWhile p
  let t := cs.dropWhile p
  ((List.range (r.length + 1)).reverse).map fun k => (r.take k, r.drop k ++ t)

/-- Greedy plus of a character class: the nonempty splits, longest first. -/
def plusSplits (p : Char → Bool) (cs : List Char) : List (List Char × List Char) :=
  (runSplits p cs).filter fun s => !s.1.isEmpty

/-- Greedy optional literal dot, in preference order (dot taken first). -/
def dotSplits : List Char → List (List Char × List Char)
  | c :: t => if c = '.' then [([c], t), ([], c :: t)] else [([], c :: t)]
  | [] => [([], [])]

/-- Final step of the token pattern: a degree sign followed by a hemisphere
letter drawn from `letters`; returns the captured group and the letter. -/
def letterCheck (letters : List Char) (grp : List Char) :
    List Char → Option (List Char × Char)
  | c :: l :: _ => if c = '°' ∧ l ∈ letters then some (grp, l) else none
  | [_] => none
  | [] => none

/-- Attempt to match `(\d+\.?\d*)\s*°(letters)` at the start of `cs`,
trying the greedy backtracking candidates in Python preference order. -/
def matchToken (letters : List Char) (cs : List Char) : Option (List Char × Char) :=
  (plusSplits (fun c => c.isDigit) cs).findSome? fun p1 =>
    (dotSplits p1.2).findSome? fun p2 =>
      (runSplits (fun c => c.isDigit) p2.2).findSome? fun p3 =>
        (runSplits (fun c => c.isWhitespace) p3.2).findSome? fun _p4 =>
          letterCheck letters (p1.1 ++ p2.1 ++ p3.1) _p4.2

/-- `re.search`: try the pattern at every position, leftmost match wins. -/
def searchToken (letters : List Char) : List Char → Option (List Char × Char)
  | [] => none
  | c :: cs =>
    match matchToken letters (c :: cs) with
    | some r => some r
    | none => searchToken letters cs

/-- Value of a digit string read in base 10. -/
def digitsVal (ds : List Char) : ℕ :=
  ds.foldl (fun a c => 10 * a + (c.toNat - '0'.toNat)) 0

/-- Numeric value of a captured magnitude group (Python `float(group)`,
idealised in `ℚ`; the group always matches `\d+\.?\d*`). -/
def groupVal (cs : List Char) : ℚ :=
  let ip := cs.takeWhile (fun c => c.isDigit)
  match cs.dropWhile (fun c => c.isDigit) with
  | '.' :: fr => (digitsVal ip : ℚ) + (digitsVal fr : ℚ) / (10 : ℚ) ^ fr.length
  | _ => (digitsVal ip : ℚ)

/-- Embedding of `parse_coordinate_string` (lines 50-69).  The
`raise ValueError(f"Could not parse coordinates from: {coord_str}")` is
modelled as `Except.error coord_str`, carrying the offending raw string. -/
def parse_coordinate_string (coord_str : List Char) : Except (List Char) (ℚ × ℚ) :=
  match searchToken ['N', 'S'] coord_str, searchToken ['E', 'W'] coord_str with
  | some lat_match, some lon_match =>
    let lat0 := groupVal lat_match.1
    let lat := if lat_match.2 = 'S' then -lat0 else lat0
    let lon0 := groupVal lon_match.1
    let lon := if lon_match.2 = 'W' then -lon0 else lon0
    .ok (lat, lon)
  | _, _ => .error coord_str

example : searchToken ['N', 'S'] ("Varanasi 25.32 °N 83.01 °E".toList) =
    some (['2', '5', '.', '3', '2'], 'N') := by decide

example : searchToken ['E', 'W'] ("83.01 °E Varanasi 25.32 °N".toList) =
    some (['8', '3', '.', '0', '1'], 'E') := by decide

example : parse_coordinate_string ("no coordinates".toList) =
    .error ("no coordinates".toList) := by decide

/-! ### Character-class facts -/

lemma isDigit_false_of_isWhitespace {c : Char} (h : c.isWhitespace = true) :
    c.isDigit = false := by
  simp only [Char.isWhitespace, Bool.or_eq_true, decide_eq_true_eq] at h
  rcases h with ((h | h) | h) | h <;> subst h <;> decide

lemma ne_dot_of_isWhitespace {c : Char} (h : c.isWhitespace = true) : c ≠ '.' := by
  intro he; subst he; exact absurd h (by decide)

lemma ne_deg_of_isWhitespace {c : Char} (h : c.isWhitespace = true) : c ≠ '°' := by
  intro he; subst he; exact absurd h (by decide)

lemma ne_deg_of_isDigit {c : Char} (h : c.isDigit = true) : c ≠ '°' := by
  intro he; subst he; exact absurd h (by decide)

lemma ne_dot_of_isDigit {c : Char} (h : c.isDigit = true) : c ≠ '.' := by
  intro he; subst he; exact absurd h (by decide)

/-! ### `takeWhile`/`dropWhile` on a run followed by a breaking character -/

lemma takeWhile_break (p : Char → Bool) :
    ∀ (xs ys : List Char), (∀ c ∈ xs, p c = true) →
      (∀ y t, ys = y :: t → p y = false) →
      (xs ++ ys).takeWhile p = xs ∧ (xs ++ ys).dropWhile p = ys := by
  intro xs
  induction xs with
  | nil =>
    intro ys _ hy
    cases ys with
    | nil => simp
    | cons y t => simp [List.takeWhile_cons, List.dropWhile_cons, hy y t rfl]
  | cons x xs ih =>
    intro ys h hy
    have hx : p x = true := h x (by simp)
    have := ih ys (fun c hc => h c (by simp [hc])) hy
    simp [List.takeWhile_cons, List.dropWhile_cons, hx, this.1, this.2]

/-! ### Structure of the candidate lists -/

lemma runSplits_eq_cons (p : Char → Bool) (cs : List Char) :
    ∃ rest, runSplits p cs = (cs.takeWhile p, cs.dropWhile p) :: rest := by
  refine ⟨((List.range (cs.takeWhile p).length).reverse).map
    (fun k => ((cs.takeWhile p).take k, (cs.takeWhile p).drop k ++ cs.dropWhile p)), ?_⟩
  simp only [runSplits, List.range_succ, List.reverse_append]
  simp

lemma plusSplits_eq_cons (p : Char → Bool) (cs : List Char)
    (h : cs.takeWhile p ≠ []) :
    ∃ rest, plusSplits p cs = (cs.takeWhile p, cs.dropWhile p) :: rest := by
  obtain ⟨rest, hr⟩ := runSplits_eq_cons p cs
  refine ⟨rest.filter fun s => !s.1.isEmpty, ?_⟩
  unfold plusSplits
  rw [hr, List.filter_cons]
  simp [h]

lemma runSplits_mem {p : Char → Bool} {cs x y : List Char}
    (h : (x, y) ∈ runSplits p cs) : cs = x ++ y ∧ ∀ c ∈ x, p c = true := by
  unfold runSplits at h
  simp only [List.mem_map, List.mem_reverse, List.mem_range] at h
  obtain ⟨k, _, hk⟩ := h
  obtain ⟨hx, hy⟩ := Prod.mk.injEq .. ▸ hk
  constructor
  · rw [← hx, ← hy, ← List.append_assoc, List.take_append_drop,
      List.takeWhile_append_dropWhile]
  · intro c hc
    rw [← hx] at hc
    exact List.mem_takeWhile_imp (List.take_subset k _ hc)

lemma plusSplits_mem {p : Char → Bool} {cs x y : List Char}
    (h : (x, y) ∈ plusSplits p cs) :
    cs = x ++ y ∧ x ≠ [] ∧ ∀ c ∈ x, p c = true := by
  unfold plusSplits at h
  rw [List.mem_filter] at h
  have hx : x ≠ [] := by
    have := h.2
    simpa using this
  exact ⟨(runSplits_mem h.1).1, hx, (runSplits_mem h.1).2⟩

lemma dotSplits_mem {cs x y : List Char} (h : (x, y) ∈ dotSplits cs) :
    cs = x ++ y ∧ (x = [] ∨ x = ['.']) := by
  match cs with
  | [] =>
    simp only [dotSplits] at h
    simp at h
    simp [h]
  | c :: t =>
    simp only [dotSplits] at h
    by_cases hc : c = '.'
    · rw [if_pos hc] at h
      rcases List.mem_cons.mp h with h | h
      · obtain ⟨hx, hy⟩ := Prod.mk.injEq .. ▸ h
        subst hc
        simp [hx, hy]
      · simp at h
        simp [h]
    · rw [if_neg hc] at h
      simp at h
      simp [h]

lemma letterCheck_some {letters grp cs : List Char} {r : List Char × Char}
    (h : letterCheck letters grp cs = some r) :
    ∃ l b, cs = '°' :: l :: b ∧ l ∈ letters ∧ r = (grp, l) := by
  match cs with
  | [] => exact absurd h (by simp [letterCheck])
  | [c] => exact absurd h (by simp [letterCheck])
  | c :: l :: b =>
    simp only [letterCheck] at h
    by_cases hc : c = '°' ∧ l ∈ letters
    · rw [if_pos hc] at h
      exact ⟨l, b, by rw [hc.1], hc.2, (Option.some.injEq .. ▸ h).symm⟩
    · rw [if_neg hc] at h
      exact absurd h (by simp)

lemma findSome?_cons_some {α β : Type} {f : α → Option β} {x : α} {r : β} (l : List α)
    (h : f x = some r) : (x :: l).findSome? f = some r := by
  simp [List.findSome?_cons, h]

/-! ### Success of the matcher at the start of a well-formed token -/

lemma matchToken_success (letters : List Char) (d1 dotp d2 ws rest : List Char) (L : Char)
    (hd1ne : d1 ≠ []) (hd1 : ∀ c ∈ d1, c.isDigit = true)
    (hdot : (dotp = [] ∧ d2 = []) ∨ (dotp = ['.'] ∧ ∀ c ∈ d2, c.isDigit = true))
    (hws : ∀ c ∈ ws, c.isWhitespace = true) (hL : L ∈ letters) :
    matchToken letters (d1 ++ dotp ++ d2 ++ ws ++ '°' :: L :: rest) =
      some (d1 ++ dotp ++ d2, L) := by
  -- the tail after the leading digit run
  have hT : ∀ y t, dotp ++ d2 ++ ws ++ '°' :: L :: rest = y :: t → y.isDigit = false := by
    intro y t hyt
    rcases hdot with ⟨hp, hq⟩ | ⟨hp, _⟩
    · subst hp; subst hq
      simp only [List.nil_append] at hyt
      cases ws with
      | nil =>
        simp at hyt
        rw [← hyt.1]; decide
      | cons w ws' =>
        simp at hyt
        rw [← hyt.1]
        exact isDigit_false_of_isWhitespace (hws w (by simp))
    · subst hp
      simp at hyt
      rw [← hyt.1]; decide
  have hsplit1 := takeWhile_break (fun c => c.isDigit)
    d1 (dotp ++ d2 ++ ws ++ '°' :: L :: rest) hd1 hT
  have htw1 : (d1 ++ (dotp ++ d2 ++ ws ++ '°' :: L :: rest)).takeWhile
      (fun c => c.isDigit) = d1 := hsplit1.1
  have hdw1 : (d1 ++ (dotp ++ d2 ++ ws ++ '°' :: L :: rest)).dropWhile
      (fun c => c.isDigit) = dotp ++ d2 ++ ws ++ '°' :: L :: rest := hsplit1.2
  obtain ⟨r1, hr1⟩ := plusSplits_eq_cons (fun c => c.isDigit)
    (d1 ++ (dotp ++ d2 ++ ws ++ '°' :: L :: rest)) (by rw [htw1]; exact hd1ne)
  rw [htw1, hdw1] at hr1
  -- the whitespace run ends at the degree sign
  have hwsbreak := takeWhile_break (fun c => c.isWhitespace) ws ('°' :: L :: rest)
    hws (by intro y t hyt; simp at hyt; rw [← hyt.1]; decide)
  -- candidate value computation, shared shape
  have hfin : letterCheck letters (d1 ++ dotp ++ d2) ('°' :: L :: rest) =
      some (d1 ++ dotp ++ d2, L) := by
    simp [letterCheck, hL]
  have hmain : matchToken letters (d1 ++ dotp ++ d2 ++ ws ++ '°' :: L :: rest) =
      matchToken letters (d1 ++ (dotp ++ d2 ++ ws ++ '°' :: L :: rest)) := by
    simp [List.append_assoc]
  rw [hmain]
  unfold matchToken
  rw [hr1]
  apply findSome?_cons_some
  rcases hdot with ⟨hp, hq⟩ | ⟨hp, hd2⟩
  · -- no dot: the optional-dot and second digit star both take nothing
    subst hp; subst hq
    simp only [List.nil_append, List.append_nil]
    have hdot1 : dotSplits (ws ++ '°' :: L :: rest) = [([], ws ++ '°' :: L :: rest)] := by
      cases ws with
      | nil =>
        simp only [List.nil_append, dotSplits]
        rw [if_neg (by decide)]
      | cons w ws' =>
        simp only [List.cons_append, dotSplits]
        rw [if_neg (ne_dot_of_isWhitespace (hws w (by simp)))]
    rw [hdot1]
    apply findSome?_cons_some
    have htw2 : (ws ++ '°' :: L :: rest).takeWhile (fun c => c.isDigit) = [] := by
      cases ws with
      | nil =>
        simp only [List.nil_append, List.takeWhile_cons]
        rw [if_neg (by decide)]
      | cons w ws' =>
        simp only [List.cons_append, List.takeWhile_cons]
        rw [if_neg (by rw [isDigit_false_of_isWhitespace (hws w (by simp))]; simp)]
    obtain ⟨r3, hr3⟩ := runSplits_eq_cons (fun c => c.isDigit) (ws ++ '°' :: L :: rest)
    rw [htw2] at hr3
    have hdw2 : (ws ++ '°' :: L :: rest).dropWhile (fun c => c.isDigit) =
        ws ++ '°' :: L :: rest := by
      have := List.takeWhile_append_dropWhile (fun c => c.isDigit) (ws ++ '°' :: L :: rest)
      rw [htw2] at this
      simpa using this
    rw [hdw2] at hr3
    rw [hr3]
    apply findSome?_cons_some
    obtain ⟨r4, hr4⟩ := runSplits_eq_cons (fun c => c.isWhitespace) (ws ++ '°' :: L :: rest)
    rw [hwsbreak.1, hwsbreak.2] at hr4
    rw [hr4]
    apply findSome?_cons_some
    simpa using hfin
  · -- dot present: the dot is taken, then the fractional digit run
    subst hp
    have hdot1 : dotSplits ('.' :: (d2 ++ ws ++ '°' :: L :: rest)) =
        [(['.'], d2 ++ ws ++ '°' :: L :: rest), ([], '.' :: (d2 ++ ws ++ '°' :: L :: rest))] := by
      simp [dotSplits]
    have harr : ['.'] ++ d2 ++ ws ++ '°' :: L :: rest =
        '.' :: (d2 ++ ws ++ '°' :: L :: rest) := by simp
    rw [harr, hdot1]
    apply findSome?_cons_some
    have hT2 : ∀ y t, ws ++ '°' :: L :: rest = y :: t → y.isDigit = false := by
      intro y t hyt
      cases ws with
      | nil =>
        simp at hyt
        rw [← hyt.1]; decide
      | cons w ws' =>
        simp at hyt
        rw [← hyt.1]
        exact isDigit_false_of_isWhitespace (hws w (by simp))
    have hsplit3 := takeWhile_break (fun c => c.isDigit) d2 (ws ++ '°' :: L :: rest) hd2 hT2
    obtain ⟨r3, hr3⟩ := runSplits_eq_cons (fun c => c.isDigit) (d2 ++ (ws ++ '°' :: L :: rest))
    rw [hsplit3.1, hsplit3.2] at hr3
    have harr2 : d2 ++ ws ++ '°' :: L :: rest = d2 ++ (ws ++ '°' :: L :: rest) := by simp
    rw [harr2, hr3]
    apply findSome?_cons_some
    obtain ⟨r4, hr4⟩ := runSplits_eq_cons (fun c => c.isWhitespace) (ws ++ '°' :: L :: rest)
    rw [hwsbreak.1, hwsbreak.2] at hr4
    rw [hr4]
    apply findSome?_cons_some
    simpa using hfin

/-! ### Failure of the matcher, and the leftmost search -/

lemma matchToken_not_digit {letters : List Char} {c : Char} {cs : List Char}
    (h : c.isDigit = false) : matchToken letters (c :: cs) = none := by
  have hp : plusSplits (fun c => c.isDigit) (c :: cs) = [] := by
    unfold plusSplits runSplits
    simp [List.takeWhile_cons, h]
  unfold matchToken
  rw [hp]
  rfl

lemma searchToken_cons_none {letters : List Char} {c : Char} {cs : List Char}
    (h : matchToken letters (c :: cs) = none) :
    searchToken letters (c :: cs) = searchToken letters cs := by
  simp [searchToken, h]

lemma searchToken_cons_some {letters : List Char} {c : Char} {cs : List Char}
    {r : List Char × Char} (h : matchToken letters (c :: cs) = some r) :
    searchToken letters (c :: cs) = some r := by
  simp [searchToken, h]

lemma searchToken_skip_nondigit {letters : List Char} :
    ∀ (seg : List Char) {rest : List Char}, (∀ c ∈ seg, c.isDigit = false) →
      searchToken letters (seg ++ rest) = searchToken letters rest := by
  intro seg
  induction seg with
  | nil => intro rest _; rfl
  | cons c t ih =>
    intro rest h
    rw [List.cons_append,
      searchToken_cons_none (matchToken_not_digit (h c (by simp)))]
    exact ih (fun c hc => h c (by simp [hc]))

/-- Soundness: a successful match decomposes the input as
digits, optional dot, digits, whitespace, degree sign, admissible letter. -/
lemma matchToken_some {letters cs : List Char} {r : List Char × Char}
    (h : matchToken letters cs = some r) :
    ∃ d1 dotp d2 ws l b, cs = d1 ++ (dotp ++ (d2 ++ (ws ++ '°' :: l :: b))) ∧
      r = (d1 ++ dotp ++ d2, l) ∧ d1 ≠ [] ∧ (∀ c ∈ d1, c.isDigit = true) ∧
      (dotp = [] ∨ dotp = ['.']) ∧ (∀ c ∈ d2, c.isDigit = true) ∧
      (∀ c ∈ ws, c.isWhitespace = true) ∧ l ∈ letters := by
  unfold matchToken at h
  obtain ⟨p1, hp1m, h1⟩ := List.exists_of_findSome?_eq_some h
  obtain ⟨x1, y1⟩ := p1
  obtain ⟨p2, hp2m, h2⟩ := List.exists_of_findSome?_eq_some h1
  obtain ⟨x2, y2⟩ := p2
  obtain ⟨p3, hp3m, h3⟩ := List.exists_of_findSome?_eq_some h2
  obtain ⟨x3, y3⟩ := p3
  obtain ⟨p4, hp4m, h4⟩ := List.exists_of_findSome?_eq_some h3
  obtain ⟨x4, y4⟩ := p4
  obtain ⟨l, b, hscs, hl, hr⟩ := letterCheck_some h4
  obtain ⟨hcs1, hne1, hd1⟩ := plusSplits_mem hp1m
  obtain ⟨hcs2, hdot⟩ := dotSplits_mem hp2m
  obtain ⟨hcs3, hd2⟩ := runSplits_mem hp3m
  obtain ⟨hcs4, hws⟩ := runSplits_mem hp4m
  dsimp only at hcs2 hcs3 hcs4 hscs hr
  refine ⟨x1, x2, x3, x4, l, b, ?_, hr, hne1, hd1, hdot, hd2,
    (by intro c hc; exact hws c hc), hl⟩
  simp only [hcs1, hcs2, hcs3, hcs4, hscs, List.append_assoc]

/-- A successful search matches at some suffix of the input. -/
lemma searchToken_some {letters : List Char} :
    ∀ {cs : List Char} {r : List Char × Char}, searchToken letters cs = some r →
      ∃ t, t <:+ cs ∧ matchToken letters t = some r := by
  intro cs
  induction cs with
  | nil => intro r h; exact absurd h (by simp [searchToken])
  | cons c t ih =>
    intro r h
    cases hm : matchToken letters (c :: t) with
    | some r' =>
      rw [searchToken_cons_some hm] at h
      exact ⟨c :: t, List.suffix_refl _, by rw [hm, h]⟩
    | none =>
      rw [searchToken_cons_none hm] at h
      obtain ⟨u, hu, hmu⟩ := ih h
      exact ⟨u, hu.trans (List.suffix_cons c t), hmu⟩

/-! ### No match can use a degree sign whose letter is inadmissible -/

lemma first_mem_eq {x : Char} :
    ∀ (a a' b b' : List Char), x ∉ a → x ∉ a' → a ++ x :: b = a' ++ x :: b' →
      a = a' ∧ b = b' := by
  intro a
  induction a with
  | nil =>
    intro a' b b' _ hx' he
    cases a' with
    | nil => simpa using he
    | cons y t =>
      simp only [List.nil_append, List.cons_append, List.cons.injEq] at he
      rw [← he.1] at hx'
      exact absurd (List.mem_cons_self x t) hx'
  | cons y t ih =>
    intro a' b b' hx hx' he
    cases a' with
    | nil =>
      simp only [List.cons_append, List.nil_append, List.cons.injEq] at he
      rw [he.1] at hx
      exact absurd (List.mem_cons_self x t) hx
    | cons y' t' =>
      simp only [List.cons_append, List.cons.injEq] at he
      have := ih t' b b' (fun hm => hx (List.mem_cons_of_mem y hm))
        (fun hm => hx' (List.mem_cons_of_mem y' hm)) he.2
      exact ⟨by rw [he.1, this.1], this.2⟩

lemma matchToken_none_of_bad_letter (letters a : List Char) (L : Char) (b : List Char)
    (ha : '°' ∉ a) (hL : L ∉ letters) :
    matchToken letters (a ++ '°' :: L :: b) = none := by
  cases hm : matchToken letters (a ++ '°' :: L :: b) with
  | none => rfl
  | some r =>
    obtain ⟨d1, dotp, d2, ws, l, b', hcs, _, _, hd1, hdot, hd2, hws, hl⟩ :=
      matchToken_some hm
    have hfree : '°' ∉ d1 ++ (dotp ++ (d2 ++ ws)) := by
      simp only [List.mem_append]
      rintro (hc | hc | hc | hc)
      · exact ne_deg_of_isDigit (hd1 _ hc) rfl
      · rcases hdot with h | h <;> subst h <;> simp at hc
      · exact ne_deg_of_isDigit (hd2 _ hc) rfl
      · exact ne_deg_of_isWhitespace (hws _ hc) rfl
    have hre : a ++ '°' :: L :: b = (d1 ++ (dotp ++ (d2 ++ ws))) ++ '°' :: l :: b' := by
      rw [hcs]; simp [List.append_assoc]
    have := first_mem_eq a (d1 ++ (dotp ++ (d2 ++ ws))) (L :: b) (l :: b') ha hfree hre
    have hll : L = l := by
      have h2 := this.2
      injection h2
    exact absurd (hll ▸ hl) hL

lemma searchToken_skip_bad_letter {letters : List Char} :
    ∀ (a : List Char) {L : Char} {rest : List Char}, '°' ∉ a → L ∉ letters →
      L.isDigit = false →
      searchToken letters (a ++ '°' :: L :: rest) = searchToken letters rest := by
  intro a
  induction a with
  | nil =>
    intro L rest _ _ hLd
    rw [List.nil_append,
      searchToken_cons_none (matchToken_not_digit (by decide)),
      searchToken_cons_none (matchToken_not_digit hLd)]
  | cons c t ih =>
    intro L rest ha hL hLd
    have hm : matchToken letters (c :: (t ++ '°' :: L :: rest)) = none := by
      have h0 := matchToken_none_of_bad_letter letters (c :: t) L rest ha hL
      simpa using h0
    rw [List.cons_append, searchToken_cons_none hm]
    exact ih (fun hm2 => ha (List.mem_cons_of_mem c hm2)) hL hLd

/-! ### Search over a string holding well-formed coordinate tokens -/

/-- A magnitude literal: integer digits and an optional fractional part. -/
def magToken (d : List Char) : Option (List Char) → List Char
  | none => d
  | some fr => d ++ '.' :: fr

lemma searchToken_at_token (letters : List Char) (d1 dotp d2 ws rest : List Char) (L : Char)
    (hd1ne : d1 ≠ []) (hd1 : ∀ c ∈ d1, c.isDigit = true)
    (hdot : (dotp = [] ∧ d2 = []) ∨ (dotp = ['.'] ∧ ∀ c ∈ d2, c.isDigit = true))
    (hws : ∀ c ∈ ws, c.isWhitespace = true) (hL : L ∈ letters) :
    searchToken letters (d1 ++ dotp ++ d2 ++ ws ++ '°' :: L :: rest) =
      some (d1 ++ dotp ++ d2, L) := by
  cases d1 with
  | nil => exact absurd rfl hd1ne
  | cons c t =>
    have hm := matchToken_success letters (c :: t) dotp d2 ws rest L hd1ne hd1 hdot hws hL
    have hg : (c :: t) ++ dotp ++ d2 ++ ws ++ '°' :: L :: rest =
        c :: (t ++ dotp ++ d2 ++ ws ++ '°' :: L :: rest) := by simp
    rw [hg] at hm ⊢
    rw [searchToken_cons_some hm]

lemma magToken_shape (d : List Char) (f : Option (List Char))
    (hf : ∀ fr, f = some fr → ∀ c ∈ fr, c.isDigit = true) :
    ∃ dotp d2, magToken d f = d ++ dotp ++ d2 ∧
      ((dotp = [] ∧ d2 = []) ∨ (dotp = ['.'] ∧ ∀ c ∈ d2, c.isDigit = true)) := by
  cases f with
  | none => exact ⟨[], [], by simp [magToken], Or.inl ⟨rfl, rfl⟩⟩
  | some fr => exact ⟨['.'], fr, by simp [magToken], Or.inr ⟨rfl, hf fr rfl⟩⟩

lemma deg_not_mem_mag_ws {d ws : List Char} {f : Option (List Char)}
    (hd : ∀ c ∈ d, c.isDigit = true)
    (hf : ∀ fr, f = some fr → ∀ c ∈ fr, c.isDigit = true)
    (hws : ∀ c ∈ ws, c.isWhitespace = true) :
    '°' ∉ magToken d f ++ ws := by
  simp only [List.mem_append]
  rintro (hc | hc)
  · cases f with
    | none =>
      simp only [magToken] at hc
      exact ne_deg_of_isDigit (hd _ hc) rfl
    | some fr =>
      simp only [magToken, List.mem_append, List.mem_cons] at hc
      rcases hc with hc | hc | hc
      · exact ne_deg_of_isDigit (hd _ hc) rfl
      · exact absurd hc.symm (by decide)
      · exact ne_deg_of_isDigit (hf fr rfl _ hc) rfl
  · exact ne_deg_of_isWhitespace (hws _ hc) rfl

/-- The search finds a well-formed token whose letter is admissible, after an
arbitrary digit-free prefix. -/
lemma searchToken_finds_token (letters : List Char) (pre d ws rest : List Char)
    (f : Option (List Char)) (L : Char)
    (hpre : ∀ c ∈ pre, c.isDigit = false)
    (hd : d ≠ []) (hdd : ∀ c ∈ d, c.isDigit = true)
    (hf : ∀ fr, f = some fr → ∀ c ∈ fr, c.isDigit = true)
    (hws : ∀ c ∈ ws, c.isWhitespace = true) (hL : L ∈ letters) :
    searchToken letters (pre ++ (magToken d f ++ (ws ++ '°' :: L :: rest))) =
      some (magToken d f, L) := by
  rw [searchToken_skip_nondigit pre hpre]
  obtain ⟨dotp, d2, hm, hdot⟩ := magToken_shape d f hf
  have hg : magToken d f ++ (ws ++ '°' :: L :: rest) =
      d ++ dotp ++ d2 ++ ws ++ '°' :: L :: rest := by
    rw [hm]; simp [List.append_assoc]
  rw [hg, searchToken_at_token letters d dotp d2 ws rest L hd hdd hdot hws hL, hm]

/-- The search skips a well-formed token whose letter is inadmissible, after an
arbitrary digit-free prefix. -/
lemma searchToken_skips_token (letters : List Char) (pre d ws rest : List Char)
    (f : Option (List Char)) (L : Char)
    (hpre : ∀ c ∈ pre, c.isDigit = false)
    (hdd : ∀ c ∈ d, c.isDigit = true)
    (hf : ∀ fr, f = some fr → ∀ c ∈ fr, c.isDigit = true)
    (hws : ∀ c ∈ ws, c.isWhitespace = true)
    (hL : L ∉ letters) (hLd : L.isDigit = false) :
    searchToken letters (pre ++ (magToken d f ++ (ws ++ '°' :: L :: rest))) =
      searchToken letters rest := by
  rw [searchToken_skip_nondigit pre hpre]
  have hg : magToken d f ++ (ws ++ '°' :: L :: rest) =
      (magToken d f ++ ws) ++ '°' :: L :: rest := by simp [List.append_assoc]
  rw [hg, searchToken_skip_bad_letter (magToken d f ++ ws)
    (deg_not_mem_mag_ws hdd hf hws) hL hLd]

/-- C4: for every coordinate string holding one `<num>°N/S` latitude token and
one `<num>°E/W` longitude token — in either order, embedded in digit-free
descriptive text — the parser returns the latitude magnitude signed positive
for N and negative for S, and the longitude magnitude signed positive for E and
negative for W.  Magnitudes are written as digits with an optional fractional
part and optional whitespace before the degree sign. -/
theorem c4_sign_convention_roundtrip
    (pre mid post ws1 ws2 d1 d2 : List Char) (f1 f2 : Option (List Char))
    (latL lonL : Char)
    (hpre : ∀ c ∈ pre, c.isDigit = false) (hmid : ∀ c ∈ mid, c.isDigit = false)
    (hd1 : d1 ≠ []) (hd1d : ∀ c ∈ d1, c.isDigit = true)
    (hf1 : ∀ fr, f1 = some fr → ∀ c ∈ fr, c.isDigit = true)
    (hd2 : d2 ≠ []) (hd2d : ∀ c ∈ d2, c.isDigit = true)
    (hf2 : ∀ fr, f2 = some fr → ∀ c ∈ fr, c.isDigit = true)
    (hws1 : ∀ c ∈ ws1, c.isWhitespace = true) (hws2 : ∀ c ∈ ws2, c.isWhitespace = true)
    (hlatL : latL = 'N' ∨ latL = 'S') (hlonL : lonL = 'E' ∨ lonL = 'W') :
    parse_coordinate_string (pre ++ magToken d1 f1 ++ ws1 ++
        '°' :: latL :: (mid ++ magToken d2 f2 ++ ws2 ++ '°' :: lonL :: post)) =
      .ok (if latL = 'S' then -groupVal (magToken d1 f1) else groupVal (magToken d1 f1),
           if lonL = 'W' then -groupVal (magToken d2 f2) else groupVal (magToken d2 f2)) ∧
    parse_coordinate_string (pre ++ magToken d2 f2 ++ ws2 ++
        '°' :: lonL :: (mid ++ magToken d1 f1 ++ ws1 ++ '°' :: latL :: post)) =
      .ok (if latL = 'S' then -groupVal (magToken d1 f1) else groupVal (magToken d1 f1),
           if lonL = 'W' then -groupVal (magToken d2 f2) else groupVal (magToken d2 f2)) := by
  have hA_NS : latL ∈ ['N', 'S'] := by rcases hlatL with h | h <;> subst h <;> decide
  have hA_nEW : latL ∉ ['E', 'W'] := by rcases hlatL with h | h <;> subst h <;> decide
  have hA_nd : latL.isDigit = false := by rcases hlatL with h | h <;> subst h <;> decide
  have hB_EW : lonL ∈ ['E', 'W'] := by rcases hlonL with h | h <;> subst h <;> decide
  have hB_nNS : lonL ∉ ['N', 'S'] := by rcases hlonL with h | h <;> subst h <;> decide
  have hB_nd : lonL.isDigit = false := by rcases hlonL with h | h <;> subst h <;> decide
  constructor
  · have hassoc : pre ++ magToken d1 f1 ++ ws1 ++
        '°' :: latL :: (mid ++ magToken d2 f2 ++ ws2 ++ '°' :: lonL :: post) =
        pre ++ (magToken d1 f1 ++ (ws1 ++
          '°' :: latL :: (mid ++ (magToken d2 f2 ++ (ws2 ++ '°' :: lonL :: post))))) := by
      simp [List.append_assoc]
    rw [hassoc]
    have hNS := searchToken_finds_token ['N', 'S'] pre d1 ws1
      (mid ++ (magToken d2 f2 ++ (ws2 ++ '°' :: lonL :: post))) f1 latL
      hpre hd1 hd1d hf1 hws1 hA_NS
    have hEW := searchToken_skips_token ['E', 'W'] pre d1 ws1
      (mid ++ (magToken d2 f2 ++ (ws2 ++ '°' :: lonL :: post))) f1 latL
      hpre hd1d hf1 hws1 hA_nEW hA_nd
    rw [searchToken_finds_token ['E', 'W'] mid d2 ws2 post f2 lonL
      hmid hd2 hd2d hf2 hws2 hB_EW] at hEW
    unfold parse_coordinate_string
    rw [hNS, hEW]
  · have hassoc : pre ++ magToken d2 f2 ++ ws2 ++
        '°' :: lonL :: (mid ++ magToken d1 f1 ++ ws1 ++ '°' :: latL :: post) =
        pre ++ (magToken d2 f2 ++ (ws2 ++
          '°' :: lonL :: (mid ++ (magToken d1 f1 ++ (ws1 ++ '°' :: latL :: post))))) := by
      simp [List.append_assoc]
    rw [hassoc]
    have hEW := searchToken_finds_token ['E', 'W'] pre d2 ws2
      (mid ++ (magToken d1 f1 ++ (ws1 ++ '°' :: latL :: post))) f2 lonL
      hpre hd2 hd2d hf2 hws2 hB_EW
    have hNS := searchToken_skips_token ['N', 'S'] pre d2 ws2
      (mid ++ (magToken d1 f1 ++ (ws1 ++ '°' :: latL :: post))) f2 lonL
      hpre hd2d hf2 hws2 hB_nNS hB_nd
    rw [searchToken_finds_token ['N', 'S'] mid d1 ws1 post f1 latL
      hmid hd1 hd1d hf1 hws1 hA_NS] at hNS
    unfold parse_coordinate_string
    rw [hNS, hEW]

/-- Witness for C4 at the two example strings of the specification:
`"25.32 °N 83.01 °E"` parses to `(25.32, 83.01)` and `"10.0 °S 20.0 °W"`
parses to `(-10.0, -20.0)`. -/
theorem c4_sign_convention_roundtrip_witness :
    parse_coordinate_string ("25.32 °N 83.01 °E".toList) = .ok (2532/100, 8301/100) ∧
    parse_coordinate_string ("10.0 °S 20.0 °W".toList) = .ok (-10, -20) := by
  constructor
  · have h := (c4_sign_convention_roundtrip [] [' '] [] [' '] [' ']
      ['2', '5'] ['8', '3'] (some ['3', '2']) (some ['0', '1']) 'N' 'E'
      (by decide) (by decide) (by decide) (by decide)
      (by intro fr hfr; injection hfr with hh; subst hh; decide)
      (by decide) (by decide)
      (by intro fr hfr; injection hfr with hh; subst hh; decide)
      (by decide) (by decide) (Or.inl rfl) (Or.inl rfl)).1
    have e : "25.32 °N 83.01 °E".toList = [] ++ magToken ['2', '5'] (some ['3', '2']) ++
        [' '] ++ '°' :: 'N' :: ([' '] ++ magToken ['8', '3'] (some ['0', '1']) ++
        [' '] ++ '°' :: 'E' :: []) := by decide
    rw [e, h, if_neg (by decide : ¬('N' = 'S')), if_neg (by decide : ¬('E' = 'W'))]
    have g1 : groupVal (magToken ['2', '5'] (some ['3', '2'])) =
        ((25 : ℕ) : ℚ) + ((32 : ℕ) : ℚ) / (10 : ℚ) ^ (2 : ℕ) := rfl
    have g2 : groupVal (magToken ['8', '3'] (some ['0', '1'])) =
        ((83 : ℕ) : ℚ) + ((1 : ℕ) : ℚ) / (10 : ℚ) ^ (2 : ℕ) := rfl
    rw [g1, g2]
    simp only [Except.ok.injEq, Prod.mk.injEq]
    constructor <;> norm_num
  · have h := (c4_sign_convention_roundtrip [] [' '] [] [' '] [' ']
      ['1', '0'] ['2', '0'] (some ['0']) (some ['0']) 'S' 'W'
      (by decide) (by decide) (by decide) (by decide)
      (by intro fr hfr; injection hfr with hh; subst hh; decide)
      (by decide) (by decide)
      (by intro fr hfr; injection hfr with hh; subst hh; decide)
      (by decide) (by decide) (Or.inr rfl) (Or.inr rfl)).1
    have e : "10.0 °S 20.0 °W".toList = [] ++ magToken ['1', '0'] (some ['0']) ++
        [' '] ++ '°' :: 'S' :: ([' '] ++ magToken ['2', '0'] (some ['0']) ++
        [' '] ++ '°' :: 'W' :: []) := by decide
    rw [e, h, if_pos rfl, if_pos rfl]
    have g1 : groupVal (magToken ['1', '0'] (some ['0'])) =
        ((10 : ℕ) : ℚ) + ((0 : ℕ) : ℚ) / (10 : ℚ) ^ (1 : ℕ) := rfl
    have g2 : groupVal (magToken ['2', '0'] (some ['0'])) =
        ((20 : ℕ) : ℚ) + ((0 : ℕ) : ℚ) / (10 : ℚ) ^ (1 : ℕ) := rfl
    rw [g1, g2]
    simp only [Except.ok.injEq, Prod.mk.injEq]
    constructor <;> norm_num

/-! ### Properties of matched magnitudes -/

lemma groupVal_nonneg (cs : List Char) : 0 ≤ groupVal cs := by
  unfold groupVal
  split
  · positivity
  · positivity

/-- A captured magnitude group: nonempty digits, an optional dot, digits —
always accepted by Python `float`. -/
def NumericGroup (m : List Char) : Prop :=
  ∃ d1 dotp d2, m = d1 ++ dotp ++ d2 ∧ d1 ≠ [] ∧ (∀ c ∈ d1, c.isDigit = true) ∧
    (dotp = [] ∨ dotp = ['.']) ∧ (∀ c ∈ d2, c.isDigit = true)

lemma searchToken_group_numeric {letters cs m : List Char} {L : Char}
    (h : searchToken letters cs = some (m, L)) : NumericGroup m := by
  obtain ⟨t, _, hm⟩ := searchToken_some h
  obtain ⟨d1, dotp, d2, ws, l, b, _, hr, hne, hd1, hdot, hd2, _, _⟩ := matchToken_some hm
  obtain ⟨hm1, _⟩ := Prod.mk.injEq .. ▸ hr
  exact ⟨d1, dotp, d2, hm1, hne, hd1, hdot, hd2⟩

lemma searchToken_letter_mem {letters cs m : List Char} {L : Char}
    (h : searchToken letters cs = some (m, L)) : L ∈ letters := by
  obtain ⟨t, _, hm⟩ := searchToken_some h
  obtain ⟨d1, dotp, d2, ws, l, b, _, hr, _, _, _, _, _, hl⟩ := matchToken_some hm
  obtain ⟨_, hL⟩ := Prod.mk.injEq .. ▸ hr
  rw [hL]
  exact hl

lemma NumericGroup.digit_or_dot {m : List Char} (h : NumericGroup m) :
    ∀ c ∈ m, c.isDigit = true ∨ c = '.' := by
  obtain ⟨d1, dotp, d2, hm, _, hd1, hdot, hd2⟩ := h
  intro c hc
  rw [hm] at hc
  simp only [List.mem_append] at hc
  rcases hc with (hc | hc) | hc
  · exact Or.inl (hd1 c hc)
  · rcases hdot with hh | hh <;> subst hh <;> simp at hc
    exact Or.inr hc
  · exact Or.inl (hd2 c hc)

/-- C2 counterexample: the parser accepts `"999 °N 83.01 °E"` and returns
latitude 999, outside [-90, 90] — the parser performs no range validation. -/
theorem c2_accepted_latitude_out_of_range :
    parse_coordinate_string ("999 °N 83.01 °E".toList) = .ok (999, 8301/100) ∧
    ¬(-90 ≤ (999 : ℚ) ∧ (999 : ℚ) ≤ 90) := by
  constructor
  · have h : parse_coordinate_string ("999 °N 83.01 °E".toList) =
        .ok (((999 : ℕ) : ℚ), ((83 : ℕ) : ℚ) + ((1 : ℕ) : ℚ) / (10 : ℚ) ^ (2 : ℕ)) := rfl
    rw [h]
    simp only [Except.ok.injEq, Prod.mk.injEq]
    constructor <;> norm_num
  · norm_num

/-- C2 (amended): the parser validates no ranges — whenever both searches
succeed it returns the signed magnitudes unchecked, so the returned latitude
lies in [-90, 90] exactly when the matched latitude magnitude is at most 90,
and the returned longitude lies in [-180, 180] exactly when the matched
longitude magnitude is at most 180. -/
theorem c2_range_iff_magnitudes_bounded
    (cs m1 m2 : List Char) (L1 L2 : Char)
    (h1 : searchToken ['N', 'S'] cs = some (m1, L1))
    (h2 : searchToken ['E', 'W'] cs = some (m2, L2)) :
    ∃ lat lon, parse_coordinate_string cs = .ok (lat, lon) ∧
      ((-90 ≤ lat ∧ lat ≤ 90) ↔ groupVal m1 ≤ 90) ∧
      ((-180 ≤ lon ∧ lon ≤ 180) ↔ groupVal m2 ≤ 180) := by
  have hnn1 : 0 ≤ groupVal m1 := groupVal_nonneg m1
  have hnn2 : 0 ≤ groupVal m2 := groupVal_nonneg m2
  refine ⟨if L1 = 'S' then -groupVal m1 else groupVal m1,
          if L2 = 'W' then -groupVal m2 else groupVal m2, ?_, ?_, ?_⟩
  · unfold parse_coordinate_string
    rw [h1, h2]
  · by_cases h : L1 = 'S'
    · rw [if_pos h]
      constructor
      · intro hx
        linarith [hx.1]
      · intro hx
        constructor <;> linarith
    · rw [if_neg h]
      constructor
      · intro hx
        exact hx.2
      · intro hx
        exact ⟨by linarith, hx⟩
  · by_cases h : L2 = 'W'
    · rw [if_pos h]
      constructor
      · intro hx
        linarith [hx.1]
      · intro hx
        constructor <;> linarith
    · rw [if_neg h]
      constructor
      · intro hx
        exact hx.2
      · intro hx
        exact ⟨by linarith, hx⟩

/-- Witness for the amended C2 at `"25.32 °N 83.01 °E"`. -/
theorem c2_range_iff_magnitudes_bounded_witness :
    ∃ lat lon, parse_coordinate_string ("25.32 °N 83.01 °E".toList) = .ok (lat, lon) ∧
      ((-90 ≤ lat ∧ lat ≤ 90) ↔ groupVal ['2', '5', '.', '3', '2'] ≤ 90) ∧
      ((-180 ≤ lon ∧ lon ≤ 180) ↔ groupVal ['8', '3', '.', '0', '1'] ≤ 180) :=
  c2_range_iff_magnitudes_bounded _ ['2', '5', '.', '3', '2'] ['8', '3', '.', '0', '1']
    'N' 'E' (by decide) (by decide)

/-- C8: the parser fails — with an error surfacing the offending raw string —
exactly when the latitude-token search or the longitude-token search fails,
and whenever a search succeeds its captured magnitude is numeric; hence the
failure condition is precisely an absent or malformed (non-numeric) token, and
there is no silent defaulting. -/
theorem c8_parse_error_exactly_on_missing_token (cs : List Char) :
    (∀ e, parse_coordinate_string cs = .error e → e = cs) ∧
    (parse_coordinate_string cs = .error cs ↔
      searchToken ['N', 'S'] cs = none ∨ searchToken ['E', 'W'] cs = none) ∧
    (∀ m L, searchToken ['N', 'S'] cs = some (m, L) → NumericGroup m) ∧
    (∀ m L, searchToken ['E', 'W'] cs = some (m, L) → NumericGroup m) := by
  refine ⟨?_, ?_, fun m L h => searchToken_group_numeric h,
    fun m L h => searchToken_group_numeric h⟩
  · intro e he
    unfold parse_coordinate_string at he
    rcases hNS : searchToken ['N', 'S'] cs with _ | p1 <;> rw [hNS] at he <;>
      rcases hEW : searchToken ['E', 'W'] cs with _ | p2 <;> rw [hEW] at he
    · injection he with hh; exact hh.symm
    · injection he with hh; exact hh.symm
    · injection he with hh; exact hh.symm
    · exact absurd he (by simp)
  · rcases hNS : searchToken ['N', 'S'] cs with _ | p1 <;>
      rcases hEW : searchToken ['E', 'W'] cs with _ | p2 <;>
      (unfold parse_coordinate_string; rw [hNS, hEW]; simp)

/-- Witness for C8 at a string with no tokens. -/
theorem c8_parse_error_exactly_on_missing_token_witness :
    ("xyz".toList : List Char) = "xyz".toList ∧
    (parse_coordinate_string ("xyz".toList) = .error ("xyz".toList) ↔
      searchToken ['N', 'S'] ("xyz".toList) = none ∨
      searchToken ['E', 'W'] ("xyz".toList) = none) :=
  ⟨(c8_parse_error_exactly_on_missing_token ("xyz".toList)).1 _ (by decide),
   (c8_parse_error_exactly_on_missing_token ("xyz".toList)).2.1⟩

/-- C9 counterexample: at `"0 °S 5 °E"` the parser accepts, the matched
latitude letter is S, yet the returned latitude 0 is non-negative — refuting
"the returned latitude is non-negative iff the matched letter is N". -/
theorem c9_zero_magnitude_breaks_iff :
    ¬ (∀ (cs : List Char) (lat lon : ℚ) (m : List Char) (L : Char),
        parse_coordinate_string cs = .ok (lat, lon) →
        searchToken ['N', 'S'] cs = some (m, L) → (0 ≤ lat ↔ L = 'N')) := by
  intro hall
  have h1 : searchToken ['N', 'S'] ("0 °S 5 °E".toList) = some (['0'], 'S') := by decide
  have hp : parse_coordinate_string ("0 °S 5 °E".toList) =
      .ok (-((0 : ℕ) : ℚ), ((5 : ℕ) : ℚ)) := rfl
  have hiff := hall _ _ _ _ _ hp h1
  have h0 : (0 : ℚ) ≤ -((0 : ℕ) : ℚ) := by norm_num
  exact absurd (hiff.mp h0) (by decide)

/-- C9 (amended): for every accepted string, the matched magnitudes are
non-negative and sign-free (digits and at most a dot, so a minus sign in the
text is never part of the match); the returned latitude is the magnitude for N
and its negation for S (symmetrically E/W for longitude), hence it is
non-negative whenever the letter is N, non-positive whenever the letter is S,
and for a nonzero magnitude it is non-negative iff the letter is N. -/
theorem c9_sign_determined_by_letter (cs : List Char) (lat lon : ℚ)
    (h : parse_coordinate_string cs = .ok (lat, lon)) :
    ∃ m1 L1 m2 L2, searchToken ['N', 'S'] cs = some (m1, L1) ∧
      searchToken ['E', 'W'] cs = some (m2, L2) ∧
      (L1 = 'N' ∨ L1 = 'S') ∧ (L2 = 'E' ∨ L2 = 'W') ∧
      0 ≤ groupVal m1 ∧ 0 ≤ groupVal m2 ∧
      (∀ c ∈ m1, c.isDigit = true ∨ c = '.') ∧
      (∀ c ∈ m2, c.isDigit = true ∨ c = '.') ∧
      lat = (if L1 = 'S' then -groupVal m1 else groupVal m1) ∧
      lon = (if L2 = 'W' then -groupVal m2 else groupVal m2) ∧
      (L1 = 'N' → 0 ≤ lat) ∧ (L1 = 'S' → lat ≤ 0) ∧
      (L2 = 'E' → 0 ≤ lon) ∧ (L2 = 'W' → lon ≤ 0) ∧
      (0 < groupVal m1 → (0 ≤ lat ↔ L1 = 'N')) ∧
      (0 < groupVal m2 → (0 ≤ lon ↔ L2 = 'E')) := by
  rcases hNS : searchToken ['N', 'S'] cs with _ | ⟨m1, L1⟩ <;>
    rcases hEW : searchToken ['E', 'W'] cs with _ | ⟨m2, L2⟩ <;>
    (unfold parse_coordinate_string at h; rw [hNS, hEW] at h)
  · exact absurd h (by simp)
  · exact absurd h (by simp)
  · exact absurd h (by simp)
  have hpair := Except.ok.injEq .. ▸ h
  obtain ⟨hlat0, hlon0⟩ := Prod.mk.injEq .. ▸ hpair
  have hlat : lat = if L1 = 'S' then -groupVal m1 else groupVal m1 := by
    rw [← hlat0]
  have hlon : lon = if L2 = 'W' then -groupVal m2 else groupVal m2 := by
    rw [← hlon0]
  have hL1 : L1 = 'N' ∨ L1 = 'S' := by
    have := searchToken_letter_mem hNS
    simpa using this
  have hL2 : L2 = 'E' ∨ L2 = 'W' := by
    have := searchToken_letter_mem hEW
    simpa using this
  have hnn1 : 0 ≤ groupVal m1 := groupVal_nonneg m1
  have hnn2 : 0 ≤ groupVal m2 := groupVal_nonneg m2
  refine ⟨m1, L1, m2, L2, rfl, rfl, hL1, hL2, hnn1, hnn2,
    (searchToken_group_numeric hNS).digit_or_dot,
    (searchToken_group_numeric hEW).digit_or_dot,
    hlat, hlon, ?_, ?_, ?_, ?_, ?_, ?_⟩
  · intro hN
    subst hN
    rw [hlat, if_neg (by decide)]
    exact hnn1
  · intro hS
    subst hS
    rw [hlat, if_pos rfl]
    linarith
  · intro hE
    subst hE
    rw [hlon, if_neg (by decide)]
    exact hnn2
  · intro hW
    subst hW
    rw [hlon, if_pos rfl]
    linarith
  · intro hpos
    rcases hL1 with hh | hh <;> subst hh
    · rw [hlat, if_neg (by decide)]
      simp [hnn1]
    · rw [hlat, if_pos rfl]
      constructor
      · intro hle
        exfalso
        linarith
      · intro hh2
        exact absurd hh2 (by decide)
  · intro hpos
    rcases hL2 with hh | hh <;> subst hh
    · rw [hlon, if_neg (by decide)]
      simp [hnn2]
    · rw [hlon, if_pos rfl]
      constructor
      · intro hle
        exfalso
        linarith
      · intro hh2
        exact absurd hh2 (by decide)

/-- Witness for the amended C9 at `"Varanasi 25.32 °N 83.01 °E"`. -/
theorem c9_sign_determined_by_letter_witness :
    ∃ m1 L1 m2 L2,
      searchToken ['N', 'S'] ("Varanasi 25.32 °N 83.01 °E".toList) = some (m1, L1) ∧
      searchToken ['E', 'W'] ("Varanasi 25.32 °N 83.01 °E".toList) = some (m2, L2) ∧
      (L1 = 'N' ∨ L1 = 'S') ∧ (L2 = 'E' ∨ L2 = 'W') ∧
      0 ≤ groupVal m1 ∧ 0 ≤ groupVal m2 ∧
      (∀ c ∈ m1, c.isDigit = true ∨ c = '.') ∧
      (∀ c ∈ m2, c.isDigit = true ∨ c = '.') ∧
      ((25 : ℚ) + 32 / 100 : ℚ) = (if L1 = 'S' then -groupVal m1 else groupVal m1) ∧
      ((83 : ℚ) + 1 / 100 : ℚ) = (if L2 = 'W' then -groupVal m2 else groupVal m2) ∧
      (L1 = 'N' → 0 ≤ ((25 : ℚ) + 32 / 100 : ℚ)) ∧
      (L1 = 'S' → ((25 : ℚ) + 32 / 100 : ℚ) ≤ 0) ∧
      (L2 = 'E' → 0 ≤ ((83 : ℚ) + 1 / 100 : ℚ)) ∧
      (L2 = 'W' → ((83 : ℚ) + 1 / 100 : ℚ) ≤ 0) ∧
      (0 < groupVal m1 → (0 ≤ ((25 : ℚ) + 32 / 100 : ℚ) ↔ L1 = 'N')) ∧
      (0 < groupVal m2 → (0 ≤ ((83 : ℚ) + 1 / 100 : ℚ) ↔ L2 = 'E')) := by
  have hp : parse_coordinate_string ("Varanasi 25.32 °N 83.01 °E".toList) =
      .ok (((25 : ℚ) + 32 / 100 : ℚ), ((83 : ℚ) + 1 / 100 : ℚ)) := by
    have h : parse_coordinate_string ("Varanasi 25.32 °N 83.01 °E".toList) =
        .ok (((25 : ℕ) : ℚ) + ((32 : ℕ) : ℚ) / (10 : ℚ) ^ (2 : ℕ),
             ((83 : ℕ) : ℚ) + ((1 : ℕ) : ℚ) / (10 : ℚ) ^ (2 : ℕ)) := rfl
    rw [h]
    simp only [Except.ok.injEq, Prod.mk.injEq]
    constructor <;> norm_num
  exact c9_sign_determined_by_letter _ _ _ hp

/-! ## Basin lookup: `find_basin_by_coordinates` (lines 71-91)

A basin record of the GeoDataFrame carries its `BasinName` and its geometry,
abstracted as the two capabilities the lookup uses: shapely `contains` and
`distance` against a point.  Points are `(x, y) = (lon, lat)` pairs over `ℚ`.
-/

/-- One row of `basins_gdf`: the name and the geometry capabilities. -/
structure BasinRow where
  basinName : String
  contains : ℚ × ℚ → Bool
  distance : ℚ × ℚ → ℚ

/-- The data of the warning printed on the nearest-basin fallback (line 90):
basin name, the point, and the distance. -/
structure FallbackWarning where
  basinName : String
  lat : ℚ
  lon : ℚ
  distance : ℚ
deriving DecidableEq

/-- `pandas.Series.idxmin` paired with the minimum value: the first index
attaining the minimum, `none` on an empty series (pandas raises there). -/
def idxmin : List ℚ → Option (ℕ × ℚ)
  | [] => none
  | x :: xs =>
    match idxmin xs with
    | none => some (0, x)
    | some im => if x ≤ im.2 then some (0, x) else some (im.1 + 1, im.2)

/-- Embedding of `find_basin_by_coordinates` (lines 71-91).  Returns the basin
name and the list of emitted warnings; `none` models the run aborting (pandas
`idxmin` raises on the empty distance series, which happens exactly when
`basins_gdf` is empty). -/
def find_basin_by_coordinates (lat lon : ℚ) (basins_gdf : List BasinRow) :
    Option (String × List FallbackWarning) :=
  let point : ℚ × ℚ := (lon, lat)
  match basins_gdf.filter (fun b => b.contains point) with
  | b :: _ => some (b.basinName, [])
  | [] =>
    match idxmin (basins_gdf.map (fun b => b.distance point)) with
    | some im =>
      match basins_gdf[im.1]? with
      | some nb => some (nb.basinName, [⟨nb.basinName, lat, lon, im.2⟩])
      | none => none
    | none => none

lemma idxmin_eq_none_iff : ∀ l : List ℚ, idxmin l = none ↔ l = [] := by
  intro l
  cases l with
  | nil => simp [idxmin]
  | cons x xs =>
    simp only [idxmin]
    constructor
    · intro h
      cases hx : idxmin xs with
      | none => rw [hx] at h; exact absurd h (by simp)
      | some im =>
        rw [hx] at h
        have h' : (if x ≤ im.2 then some (0, x) else some (im.1 + 1, im.2) :
            Option (ℕ × ℚ)) = none := h
        by_cases hle : x ≤ im.2
        · rw [if_pos hle] at h'; exact absurd h' (by simp)
        · rw [if_neg hle] at h'; exact absurd h' (by simp)
    · intro h; exact absurd h (by simp)

lemma idxmin_spec : ∀ (l : List ℚ) (i : ℕ) (m : ℚ), idxmin l = some (i, m) →
    l[i]? = some m ∧ (∀ j y, j < i → l[j]? = some y → m < y) ∧ ∀ y ∈ l, m ≤ y := by
  intro l
  induction l with
  | nil => intro i m h; exact absurd h (by simp [idxmin])
  | cons x xs ih =>
    intro i m h
    simp only [idxmin] at h
    cases hx : idxmin xs with
    | none =>
      rw [hx] at h
      have hxs : xs = [] := (idxmin_eq_none_iff xs).mp hx
      obtain ⟨hi, hm⟩ := Prod.mk.injEq .. ▸ (Option.some.injEq .. ▸ h)
      subst hxs
      constructor
      · rw [← hi, ← hm]; simp
      constructor
      · intro j y hj
        rw [← hi] at hj
        exact absurd hj (by simp)
      · intro y hy
        simp at hy
        rw [← hm, hy]
    | some im =>
      rw [hx] at h
      have h' : (if x ≤ im.2 then some (0, x) else some (im.1 + 1, im.2) :
          Option (ℕ × ℚ)) = some (i, m) := h
      obtain ⟨hg, hbefore, hall⟩ := ih im.1 im.2 (by rw [hx])
      by_cases hle : x ≤ im.2
      · rw [if_pos hle] at h'
        obtain ⟨hi, hm⟩ := Prod.mk.injEq .. ▸ (Option.some.injEq .. ▸ h')
        constructor
        · rw [← hi, ← hm]; simp
        constructor
        · intro j y hj
          rw [← hi] at hj
          exact absurd hj (by simp)
        · intro y hy
          rcases List.mem_cons.mp hy with hy | hy
          · rw [← hm, hy]
          · rw [← hm]
            exact le_trans hle (hall y hy)
      · rw [if_neg hle] at h'
        push_neg at hle
        obtain ⟨hi, hm⟩ := Prod.mk.injEq .. ▸ (Option.some.injEq .. ▸ h')
        constructor
        · rw [← hi, ← hm]
          simpa using hg
        constructor
        · intro j y hj hjy
          rw [← hi] at hj
          cases j with
          | zero =>
            simp at hjy
            rw [← hm, ← hjy]
            exact hle
          | succ j' =>
            have hj' : j' < im.1 := by omega
            have : xs[j']? = some y := by simpa using hjy
            rw [← hm]
            exact hbefore j' y hj' this
        · intro y hy
          rcases List.mem_cons.mp hy with hy | hy
          · rw [← hm, hy]
            exact le_of_lt hle
          · rw [← hm]
            exact hall y hy

/-- The nearest-basin fallback (lines 84-91): when no polygon contains the
point and the set is non-empty, the lookup resolves to the first polygon of
minimal distance and emits one warning carrying its name, the point and the
distance. -/
lemma find_basin_fallback (lat lon : ℚ) (basins_gdf : List BasinRow)
    (hne : basins_gdf ≠ [])
    (hnc : basins_gdf.filter (fun b => b.contains (lon, lat)) = []) :
    ∃ (i : ℕ) (nb : BasinRow), basins_gdf[i]? = some nb ∧
      find_basin_by_coordinates lat lon basins_gdf =
        some (nb.basinName, [⟨nb.basinName, lat, lon, nb.distance (lon, lat)⟩]) ∧
      (∀ (j : ℕ) (b' : BasinRow), j < i → basins_gdf[j]? = some b' →
        nb.distance (lon, lat) < b'.distance (lon, lat)) ∧
      (∀ b' ∈ basins_gdf, nb.distance (lon, lat) ≤ b'.distance (lon, lat)) := by
  cases him : idxmin (basins_gdf.map (fun b => b.distance (lon, lat))) with
  | none =>
    rw [idxmin_eq_none_iff] at him
    simp only [List.map_eq_nil_iff] at him
    exact absurd him hne
  | some im =>
    obtain ⟨hg, hbefore, hall⟩ := idxmin_spec _ im.1 im.2 him
    rw [List.getElem?_map] at hg
    cases hb : basins_gdf[im.1]? with
    | none => rw [hb] at hg; exact absurd hg (by simp)
    | some nb =>
      rw [hb] at hg
      have hdist : nb.distance (lon, lat) = im.2 := by simpa using hg
      refine ⟨im.1, nb, hb, ?_, ?_, ?_⟩
      · simp only [find_basin_by_coordinates]
        rw [hnc, him]
        dsimp only
        rw [hb]
        dsimp only
        rw [hdist]
      · intro j b' hj hjb
        have hmap : (basins_gdf.map (fun b => b.distance (lon, lat)))[j]? =
            some (b'.distance (lon, lat)) := by
          rw [List.getElem?_map, hjb]; rfl
        rw [hdist]
        exact hbefore j _ hj hmap
      · intro b' hb'
        rw [hdist]
        exact hall _ (List.mem_map_of_mem _ hb')

/-- C3: the basin lookup fails exactly when the polygon set is empty (the
`NoBasinDataError` of the specification, realised in the code by `idxmin`
raising on the empty distance series), and on any non-empty set it always
resolves to the identifier of one of its polygons — containment first, the
nearest-polygon path as guaranteed fallback. -/
theorem c3_lookup_fails_iff_no_basins (lat lon : ℚ) (basins_gdf : List BasinRow) :
    (find_basin_by_coordinates lat lon basins_gdf = none ↔ basins_gdf = []) ∧
    (∀ r ws, find_basin_by_coordinates lat lon basins_gdf = some (r, ws) →
      ∃ b ∈ basins_gdf, b.basinName = r) := by
  cases hf : basins_gdf.filter (fun b => b.contains (lon, lat)) with
  | cons b bs =>
    have hp : find_basin_by_coordinates lat lon basins_gdf = some (b.basinName, []) := by
      simp only [find_basin_by_coordinates]
      rw [hf]
    have hbmem : b ∈ basins_gdf := by
      have : b ∈ basins_gdf.filter (fun x => x.contains (lon, lat)) := by
        rw [hf]; simp
      exact (List.mem_filter.mp this).1
    constructor
    · rw [hp]
      constructor
      · intro hco; exact absurd hco (by simp)
      · intro hco
        subst hco
        simp at hf
    · intro r ws hr
      rw [hp] at hr
      obtain ⟨h1, _⟩ := Prod.mk.injEq .. ▸ (Option.some.injEq .. ▸ hr)
      exact ⟨b, hbmem, h1⟩
  | nil =>
    cases hbs : basins_gdf with
    | nil =>
      constructor
      · simp [find_basin_by_coordinates, idxmin]
      · intro r ws hr
        simp [find_basin_by_coordinates, idxmin] at hr
    | cons c t =>
      obtain ⟨i, nb, hb, hp, _, _⟩ := find_basin_fallback lat lon basins_gdf
        (by rw [hbs]; simp) hf
      rw [hbs] at hp hb
      constructor
      · rw [hp]
        constructor
        · intro hco; exact absurd hco (by simp)
        · intro hco; exact absurd hco (by simp)
      · intro r ws hr
        rw [hp] at hr
        obtain ⟨h1, _⟩ := Prod.mk.injEq .. ▸ (Option.some.injEq .. ▸ hr)
        exact ⟨nb, List.getElem?_mem hb, h1⟩

/-- Witness for C3 on a one-polygon set containing the point. -/
theorem c3_lookup_fails_iff_no_basins_witness :
    ∃ b ∈ [BasinRow.mk "Ganges" (fun _ => true) (fun _ => 0)], b.basinName = "Ganges" :=
  (c3_lookup_fails_iff_no_basins 0 0
    [BasinRow.mk "Ganges" (fun _ => true) (fun _ => 0)]).2 "Ganges" [] rfl

/-- C5: when some polygon contains the point, the lookup returns the
identifier of the first containing polygon in the dataset's native order
(dataset-order tie-break), and no fallback warning is emitted; in particular a
point strictly inside exactly one polygon resolves to that polygon. -/
theorem c5_first_containing_polygon (lat lon : ℚ) (basins_gdf : List BasinRow)
    (b : BasinRow) (h : basins_gdf.find? (fun x => x.contains (lon, lat)) = some b) :
    find_basin_by_coordinates lat lon basins_gdf = some (b.basinName, []) := by
  induction basins_gdf with
  | nil => exact absurd h (by simp)
  | cons c t ih =>
    by_cases hc : c.contains (lon, lat) = true
    · have hfc : List.find? (fun x => x.contains (lon, lat)) (c :: t) = some c :=
        List.find?_cons_of_pos _ hc
      rw [hfc] at h
      injection h with hh
      subst hh
      simp only [find_basin_by_coordinates]
      have hflt : List.filter (fun x => x.contains (lon, lat)) (c :: t) =
          c :: List.filter (fun x => x.contains (lon, lat)) t :=
        List.filter_cons_of_pos hc
      rw [hflt]
    · have hfc : List.find? (fun x => x.contains (lon, lat)) (c :: t) =
          List.find? (fun x => x.contains (lon, lat)) t :=
        List.find?_cons_of_neg _ hc
      rw [hfc] at h
      have ih' := ih h
      simp only [find_basin_by_coordinates] at ih' ⊢
      have hflt : List.filter (fun x => x.contains (lon, lat)) (c :: t) =
          List.filter (fun x => x.contains (lon, lat)) t :=
        List.filter_cons_of_neg hc
      cases hft : List.filter (fun x => x.contains (lon, lat)) t with
      | nil =>
        exfalso
        have hmem := List.mem_of_find?_eq_some h
        have hpb := List.find?_some h
        have hbm : b ∈ List.filter (fun x => x.contains (lon, lat)) t :=
          List.mem_filter.mpr ⟨hmem, hpb⟩
        rw [hft] at hbm
        simp at hbm
      | cons hd tl =>
        rw [hft] at ih'
        dsimp only at ih'
        rw [hflt, hft]
        dsimp only
        exact ih'

/-- Witness for C5: two polygons, only the second contains the point. -/
theorem c5_first_containing_polygon_witness :
    find_basin_by_coordinates 1 2
      [BasinRow.mk "A" (fun _ => false) (fun _ => 1),
       BasinRow.mk "B" (fun _ => true) (fun _ => 2)] = some ("B", []) :=
  c5_first_containing_polygon 1 2 _ (BasinRow.mk "B" (fun _ => true) (fun _ => 2)) rfl

/-- C6: when no polygon contains the point and the set is non-empty, the
lookup returns the identifier of a polygon of minimal planar distance to the
point and emits a warning-level diagnostic carrying the basin name, the point
and the distance — the path succeeds, it is not a failure. -/
theorem c6_nearest_polygon_fallback (lat lon : ℚ) (basins_gdf : List BasinRow)
    (hne : basins_gdf ≠ [])
    (hnc : ∀ b ∈ basins_gdf, b.contains (lon, lat) = false) :
    ∃ b ∈ basins_gdf,
      find_basin_by_coordinates lat lon basins_gdf =
        some (b.basinName, [⟨b.basinName, lat, lon, b.distance (lon, lat)⟩]) ∧
      ∀ b' ∈ basins_gdf, b.distance (lon, lat) ≤ b'.distance (lon, lat) := by
  have hf : basins_gdf.filter (fun b => b.contains (lon, lat)) = [] :=
    List.filter_eq_nil_iff.mpr (by intro a ha; simp [hnc a ha])
  obtain ⟨i, nb, hb, hp, _, hall⟩ := find_basin_fallback lat lon basins_gdf hne hf
  exact ⟨nb, List.getElem?_mem hb, hp, hall⟩

/-- Witness for C6: two polygons, neither containing the point; the nearer
one (distance 3) wins and the warning carries its data. -/
theorem c6_nearest_polygon_fallback_witness :
    ∃ b ∈ [BasinRow.mk "A" (fun _ => false) (fun _ => 5),
           BasinRow.mk "B" (fun _ => false) (fun _ => 3)],
      find_basin_by_coordinates 7 8
          [BasinRow.mk "A" (fun _ => false) (fun _ => 5),
           BasinRow.mk "B" (fun _ => false) (fun _ => 3)] =
        some (b.basinName, [⟨b.basinName, 7, 8, b.distance (8, 7)⟩]) ∧
      ∀ b' ∈ [BasinRow.mk "A" (fun _ => false) (fun _ => 5),
              BasinRow.mk "B" (fun _ => false) (fun _ => 3)],
        b.distance (8, 7) ≤ b'.distance (8, 7) :=
  c6_nearest_polygon_fallback 7 8
    [BasinRow.mk "A" (fun _ => false) (fun _ => 5),
     BasinRow.mk "B" (fun _ => false) (fun _ => 3)]
    (by simp) (by intro b hb; fin_cases hb <;> rfl)

/-- C10: in the nearest-polygon fallback, the polygon returned is the first
one attaining the minimal distance in the dataset's iteration order — every
earlier polygon is strictly farther — the same dataset-order tie-break the
containment path uses. -/
theorem c10_fallback_dataset_order_tie_break (lat lon : ℚ) (basins_gdf : List BasinRow)
    (hne : basins_gdf ≠ [])
    (hnc : ∀ b ∈ basins_gdf, b.contains (lon, lat) = false) :
    ∃ (i : ℕ) (b : BasinRow), basins_gdf[i]? = some b ∧
      find_basin_by_coordinates lat lon basins_gdf =
        some (b.basinName, [⟨b.basinName, lat, lon, b.distance (lon, lat)⟩]) ∧
      (∀ (j : ℕ) (b' : BasinRow), j < i → basins_gdf[j]? = some b' →
        b.distance (lon, lat) < b'.distance (lon, lat)) ∧
      (∀ b' ∈ basins_gdf, b.distance (lon, lat) ≤ b'.distance (lon, lat)) := by
  have hf : basins_gdf.filter (fun b => b.contains (lon, lat)) = [] :=
    List.filter_eq_nil_iff.mpr (by intro a ha; simp [hnc a ha])
  exact find_basin_fallback lat lon basins_gdf hne hf

/-- Witness for C10: two polygons at equal distance (a tie); the first one in
dataset order is returned. -/
theorem c10_fallback_dataset_order_tie_break_witness :
    ∃ (i : ℕ) (b : BasinRow),
      [BasinRow.mk "A" (fun _ => false) (fun _ => 4),
       BasinRow.mk "B" (fun _ => false) (fun _ => 4)][i]? = some b ∧
      find_basin_by_coordinates 1 1
          [BasinRow.mk "A" (fun _ => false) (fun _ => 4),
           BasinRow.mk "B" (fun _ => false) (fun _ => 4)] =
        some (b.basinName, [⟨b.basinName, 1, 1, b.distance (1, 1)⟩]) ∧
      (∀ (j : ℕ) (b' : BasinRow), j < i →
        [BasinRow.mk "A" (fun _ => false) (fun _ => 4),
         BasinRow.mk "B" (fun _ => false) (fun _ => 4)][j]? = some b' →
        b.distance (1, 1) < b'.distance (1, 1)) ∧
      (∀ b' ∈ [BasinRow.mk "A" (fun _ => false) (fun _ => 4),
               BasinRow.mk "B" (fun _ => false) (fun _ => 4)],
        b.distance (1, 1) ≤ b'.distance (1, 1)) :=
  c10_fallback_dataset_order_tie_break 1 1
    [BasinRow.mk "A" (fun _ => false) (fun _ => 4),
     BasinRow.mk "B" (fun _ => false) (fun _ => 4)]
    (by simp) (by intro b hb; fin_cases hb <;> rfl)

/-! ## Diversity aggregation: `get_basin_fish_diversity` (lines 93-125) -/

/-- One row of the occurrence table, with the three fields the aggregator
reads: `1.Basin.Name`, `6.Fishbase.Valid.Species.Name`,
`3.Native.Exotic.Status`. -/
structure OccRecord where
  basinName : String
  speciesName : String
  status : String
deriving DecidableEq

/-- The dictionary returned by `get_basin_fish_diversity`. -/
structure DiversityResult where
  species_count : ℕ
  native_species_count : ℕ
  exotic_species_count : ℕ
  species_list : List String
deriving DecidableEq

/-- `pandas.Series.nunique`: the number of distinct values. -/
def nunique (l : List String) : ℕ := l.dedup.length

/-- `pandas.Series.unique().tolist()`: the distinct values, first occurrences
kept in order (`List.dedup` keeps last occurrences, so dedup the reversal). -/
def uniqueList (l : List String) : List String := l.reverse.dedup.reverse

/-- Embedding of `get_basin_fish_diversity` (lines 93-125). -/
def get_basin_fish_diversity (basin_name : String) (occ_df : List OccRecord) :
    DiversityResult :=
  let basin_fish := occ_df.filter (fun r => r.basinName == basin_name)
  if basin_fish.length = 0 then
    ⟨0, 0, 0, []⟩
  else
    let species_count := nunique (basin_fish.map (fun r => r.speciesName))
    let native_fish := basin_fish.filter (fun r => r.status == "native")
    let exotic_fish := basin_fish.filter (fun r => r.status == "exotic")
    ⟨species_count,
     nunique (native_fish.map (fun r => r.speciesName)),
     nunique (exotic_fish.map (fun r => r.speciesName)),
     uniqueList (basin_fish.map (fun r => r.speciesName))⟩

lemma nunique_eq_card_toFinset (l : List String) : nunique l = l.toFinset.card := by
  rw [nunique, List.card_toFinset]

lemma uniqueList_toFinset (l : List String) : (uniqueList l).toFinset = l.toFinset := by
  ext a
  simp [uniqueList, List.mem_toFinset, List.mem_dedup]

/-- The species list of a diversity result denotes exactly as many distinct
species as `species_count` records. -/
lemma species_list_card (basin_name : String) (occ_df : List OccRecord) :
    (get_basin_fish_diversity basin_name occ_df).species_list.toFinset.card =
      (get_basin_fish_diversity basin_name occ_df).species_count := by
  simp only [get_basin_fish_diversity]
  by_cases h : (occ_df.filter (fun r => r.basinName == basin_name)).length = 0
  · rw [if_pos h]
    simp
  · rw [if_neg h]
    dsimp only
    rw [uniqueList_toFinset, nunique_eq_card_toFinset]

/-- C7: the total species count is the number of distinct species names among
the records whose basin field exactly matches the identifier, regardless of
status; the native and exotic counts are the independently computed distinct
counts over the matching records whose status is exactly `native`
(respectively `exotic`); and there are inputs with unrecognized status values
on which native + exotic does not reach the total. -/
theorem c7_diversity_counts (basin_name : String) (occ_df : List OccRecord) :
    (get_basin_fish_diversity basin_name occ_df).species_count =
      ((occ_df.filter (fun r => r.basinName == basin_name)).map
        (fun r => r.speciesName)).toFinset.card ∧
    (get_basin_fish_diversity basin_name occ_df).native_species_count =
      ((occ_df.filter (fun r => r.basinName == basin_name && r.status == "native")).map
        (fun r => r.speciesName)).toFinset.card ∧
    (get_basin_fish_diversity basin_name occ_df).exotic_species_count =
      ((occ_df.filter (fun r => r.basinName == basin_name && r.status == "exotic")).map
        (fun r => r.speciesName)).toFinset.card ∧
    ∃ (b : String) (occ : List OccRecord),
      (get_basin_fish_diversity b occ).native_species_count +
          (get_basin_fish_diversity b occ).exotic_species_count ≠
        (get_basin_fish_diversity b occ).species_count := by
  have hnat : ∀ st : String,
      (occ_df.filter (fun r => r.basinName == basin_name)).filter
          (fun r => r.status == st) =
        occ_df.filter (fun r => r.basinName == basin_name && r.status == st) := by
    intro st
    rw [List.filter_filter]
    exact List.filter_congr (by intro a _; rw [Bool.and_comm])
  refine ⟨?_, ?_, ?_, "B", [⟨"B", "s", "translocated"⟩], by decide⟩ <;>
    (simp only [get_basin_fish_diversity];
     by_cases h : (occ_df.filter (fun r => r.basinName == basin_name)).length = 0)
  · rw [if_pos h]
    rw [List.length_eq_zero] at h
    rw [h]
    simp
  · rw [if_neg h]
    dsimp only
    rw [nunique_eq_card_toFinset]
  · rw [if_pos h]
    rw [List.length_eq_zero] at h
    rw [← hnat "native", h]
    simp
  · rw [if_neg h]
    dsimp only
    rw [nunique_eq_card_toFinset, hnat "native"]
  · rw [if_pos h]
    rw [List.length_eq_zero] at h
    rw [← hnat "exotic", h]
    simp
  · rw [if_neg h]
    dsimp only
    rw [nunique_eq_card_toFinset, hnat "exotic"]

/-! ## Pipeline loop body: `main` (lines 140-189) -/

/-- One transfer project as prepared by `parse_ibt_coordinates`. -/
structure IbtProject where
  rank : ℤ
  basin_pair : String
  project : String
  design_flow : String
  sender_lat : ℚ
  sender_lon : ℚ
  receiver_lat : ℚ
  receiver_lon : ℚ
deriving DecidableEq

/-- One output row of the result table (lines 170-187). -/
structure ResultRow where
  rank : ℤ
  basin_pair : String
  project : String
  design_flow : String
  sender_basin : String
  receiver_basin : String
  sender_species_count : ℕ
  sender_native_count : ℕ
  sender_exotic_count : ℕ
  receiver_species_count : ℕ
  receiver_native_count : ℕ
  receiver_exotic_count : ℕ
  jaccard_similarity : ℚ
  jaccard_dissimilarity : ℚ
  shared_species_count : ℕ
  total_unique_species : ℕ
deriving DecidableEq

/-- One iteration of the main loop (lines 140-189): resolve both basins,
aggregate both inventories, compute the Jaccard block (lines 158-168) and
assemble the row (lines 170-187).  `none` models the run aborting inside a
basin lookup. -/
def processProject (basins_gdf : List BasinRow) (occ_df : List OccRecord)
    (project : IbtProject) : Option ResultRow :=
  match find_basin_by_coordinates project.sender_lat project.sender_lon basins_gdf,
        find_basin_by_coordinates project.receiver_lat project.receiver_lon basins_gdf with
  | some s, some r =>
    let sender_basin := s.1
    let receiver_basin := r.1
    let sender_diversity := get_basin_fish_diversity sender_basin occ_df
    let receiver_diversity := get_basin_fish_diversity receiver_basin occ_df
    let sender_species := sender_diversity.species_list.toFinset
    let receiver_species := receiver_diversity.species_list.toFinset
    let jac :=
      if sender_species.card = 0 ∧ receiver_species.card = 0 then ((0 : ℚ), (0 : ℚ))
      else
        let i := (sender_species ∩ receiver_species).card
        let u := (sender_species ∪ receiver_species).card
        let sim := if 0 < u then (i : ℚ) / (u : ℚ) else 0
        (sim, 1 - sim)
    some ⟨project.rank, project.basin_pair, project.project, project.design_flow,
      sender_basin, receiver_basin,
      sender_diversity.species_count, sender_diversity.native_species_count,
      sender_diversity.exotic_species_count,
      receiver_diversity.species_count, receiver_diversity.native_species_count,
      receiver_diversity.exotic_species_count,
      jac.1, jac.2,
      (sender_species ∩ receiver_species).card,
      (sender_species ∪ receiver_species).card⟩
  | _, _ => none

/-- C1: on every row the pipeline produces, whenever the union of the sender
and receiver species sets is non-empty, `jaccard_similarity +
jaccard_dissimilarity = 1` exactly in `ℚ` (hence within any tolerance), and
when both species sets are empty both metrics are 0 — the explicit special
case of lines 161-163, not a 0/0 ratio. -/
theorem c1_jaccard_invariant (basins_gdf : List BasinRow) (occ_df : List OccRecord)
    (project : IbtProject) (row : ResultRow)
    (h : processProject basins_gdf occ_df project = some row) :
    (row.total_unique_species ≠ 0 →
      row.jaccard_similarity + row.jaccard_dissimilarity = 1) ∧
    (row.sender_species_count = 0 ∧ row.receiver_species_count = 0 →
      row.jaccard_similarity = 0 ∧ row.jaccard_dissimilarity = 0) := by
  rcases hs : find_basin_by_coordinates project.sender_lat project.sender_lon basins_gdf
    with _ | s <;>
    rcases hr : find_basin_by_coordinates project.receiver_lat project.receiver_lon basins_gdf
      with _ | r <;>
    (unfold processProject at h; rw [hs, hr] at h)
  · exact absurd h (by simp)
  · exact absurd h (by simp)
  · exact absurd h (by simp)
  dsimp only at h
  injection h with hrow
  subst hrow
  dsimp only
  constructor
  · intro hne
    by_cases hc :
        (get_basin_fish_diversity s.1 occ_df).species_list.toFinset.card = 0 ∧
        (get_basin_fish_diversity r.1 occ_df).species_list.toFinset.card = 0
    · exfalso
      apply hne
      have h1 : (get_basin_fish_diversity s.1 occ_df).species_list.toFinset = ∅ :=
        Finset.card_eq_zero.mp hc.1
      have h2 : (get_basin_fish_diversity r.1 occ_df).species_list.toFinset = ∅ :=
        Finset.card_eq_zero.mp hc.2
      rw [h1, h2]
      simp
    · rw [if_neg hc]
      dsimp only
      ring
  · intro hcount
    have h1 : (get_basin_fish_diversity s.1 occ_df).species_list.toFinset.card = 0 := by
      rw [species_list_card]
      exact hcount.1
    have h2 : (get_basin_fish_diversity r.1 occ_df).species_list.toFinset.card = 0 := by
      rw [species_list_card]
      exact hcount.2
    rw [if_pos ⟨h1, h2⟩]
    exact ⟨rfl, rfl⟩

/-- Witness for C1 on a one-basin, one-species input: the produced row has
similarity 1/1 and dissimilarity 1 - 1/1, summing to 1. -/
theorem c1_jaccard_invariant_witness :
    ((1 : ℕ) : ℚ) / ((1 : ℕ) : ℚ) + (1 - ((1 : ℕ) : ℚ) / ((1 : ℕ) : ℚ)) = 1 :=
  (c1_jaccard_invariant
    [BasinRow.mk "Basin" (fun _ => true) (fun _ => 0)]
    [OccRecord.mk "Basin" "sp1" "native"]
    (IbtProject.mk 1 "P" "Q" "F" 0 0 0 0)
    ⟨1, "P", "Q", "F", "Basin", "Basin", 1, 1, 0, 1, 1, 0,
      ((1 : ℕ) : ℚ) / ((1 : ℕ) : ℚ), 1 - ((1 : ℕ) : ℚ) / ((1 : ℕ) : ℚ), 1, 1⟩
    rfl).1 (by decide)

end IbtEcology
